import Mathlib

set_option maxHeartbeats 1000000

/-!
Shallow embedding of the job-lifecycle orchestrator of
`mcp-multi-agent-server-delegation` (TypeScript): the in-memory `JobStore`
(store.ts), the HTTP callback handlers (callback-server.ts), the cancel
operation and the periodic cleanup tick (server.ts), and the zod payload
schemas (schemas.ts).

Modelling conventions:
* JavaScript numbers are modelled as `ℚ`; `Date` values as their
  `getTime()` millisecond value, also `ℚ`.
* The store's `Map<string, JobState>` is an association list with
  `Map.set` semantics (replace in place if the key exists, else append).
* `crypto.randomUUID()` is modelled as a fresh-identifier supply: the
  store carries a counter `nextId` and ids are generated injectively
  from it (`genId`).
* Optional fields are `Option`; JavaScript truthiness tests on them are
  embedded explicitly (`0` and the empty string are falsy).
* Opaque `unknown[]` artifact values are modelled as strings.
* The asynchronous destroy calls to the provisioner do not touch the
  store; their success or failure is passed in as an oracle where the
  code branches on it (`cleanupTick`) or swallows it (`handleCancelJob`).
-/

/-- Job lifecycle status (`types.ts`, `JobStatus`). -/
inductive JobStatus where
  | pending
  | provisioning
  | running
  | success
  | failed
  | timeout
  deriving DecidableEq, Repr

/-- Agent kind carried in the manifest (`types.ts`, `AgentType`). -/
inductive AgentType where
  | claude
  | script
  | custom
  deriving DecidableEq, Repr

/-- VM lifecycle policy (`types.ts`, `Lifecycle`). -/
inductive Lifecycle where
  | ephemeral
  | persistent
  deriving DecidableEq, Repr

/-- Status verbosity mode (`types.ts`, `StatusMode`). -/
inductive StatusMode where
  | simple
  | detailed
  | streaming
  deriving DecidableEq, Repr

/-- Agent configuration (`types.ts`, `AgentConfig`). -/
structure AgentConfig where
  command : Option String
  claudeModel : Option String
  deriving DecidableEq, Repr

/-- File shipped into the VM (`types.ts`, `JobFile`). -/
structure JobFile where
  path : String
  content : String
  deriving DecidableEq, Repr

/-- Resource hints (`types.ts`, `JobResources`). -/
structure JobResources where
  cpu : Option ℚ
  memory : Option String
  disk : Option String
  deriving DecidableEq, Repr

/-- Immutable job description (`types.ts`, `JobManifest`).  The `env`
record is modelled as an association list. -/
structure JobManifest where
  task : String
  agentType : AgentType
  agent : Option AgentConfig
  files : Option (List JobFile)
  env : Option (List (String × String))
  secrets : Option (List String)
  resources : Option JobResources
  timeout : Option ℚ
  lifecycle : Option Lifecycle
  vmTemplate : Option String
  statusMode : Option StatusMode
  deriving DecidableEq, Repr

/-- Mutable per-job state (`types.ts`, `JobState`).  `Date` fields carry
their millisecond `getTime()` value. -/
structure JobState where
  id : String
  manifest : JobManifest
  status : JobStatus
  vmId : Option String
  createdAt : ℚ
  startedAt : Option ℚ
  completedAt : Option ℚ
  output : Option String
  error : Option String
  artifacts : Option (List String)
  lastHeartbeat : Option ℚ
  progress : Option String
  deriving DecidableEq, Repr

/-- The in-memory job table (`store.ts`, `JobStore`).  `jobs` is the
`Map<string, JobState>` as an association list; `nextId` models the
`crypto.randomUUID()` fresh-identifier supply. -/
structure JobStore where
  jobs : List (String × JobState)
  nextId : Nat
  deriving DecidableEq, Repr

/-- Lookup of a key in the association list (`Map.get`). -/
def lookupJob : List (String × JobState) → String → Option JobState
  | [], _ => none
  | e :: rest, id => if e.1 = id then some e.2 else lookupJob rest id

/-- Pointwise replacement of the entry with the given key, leaving other
entries alone.  On a map with unique keys this is exactly the in-place
mutation performed by `Object.assign(job, updates)` after `Map.get`. -/
def updateEntries (id : String) (f : JobState → JobState)
    (l : List (String × JobState)) : List (String × JobState) :=
  l.map fun e => if e.1 = id then (e.1, f e.2) else e

/-- `Map.set` semantics: replace in place when the key exists, append
otherwise. -/
def setEntry (id : String) (j : JobState)
    (l : List (String × JobState)) : List (String × JobState) :=
  if (lookupJob l id).isSome then updateEntries id (fun _ => j) l
  else l ++ [(id, j)]

/-- `JobStore.getJob` (store.ts): `this.jobs.get(id)`. -/
def getJob (s : JobStore) (id : String) : Option JobState :=
  lookupJob s.jobs id

/-- `JobStore.updateJob` (store.ts): merge updates into the job if it
exists, returning whether it did.  The merge performed by a call site's
literal update object is passed as the function `f`. -/
def updateJob (s : JobStore) (id : String) (f : JobState → JobState) :
    Bool × JobStore :=
  match lookupJob s.jobs id with
  | none => (false, s)
  | some _ => (true, { s with jobs := updateEntries id f s.jobs })

/-- The id generated for the `n`-th `createJob` call; injective, modelling
`crypto.randomUUID()` as a fresh-identifier supply. -/
def genId (n : Nat) : String :=
  String.mk (List.replicate n 'x')

/-- `JobStore.createJob` (store.ts): allocate an id, insert a `pending`
job with `createdAt = now`, return the id. -/
def createJob (s : JobStore) (manifest : JobManifest) (now : ℚ) :
    String × JobStore :=
  let id := genId s.nextId
  let job : JobState :=
    { id := id, manifest := manifest, status := .pending, vmId := none,
      createdAt := now, startedAt := none, completedAt := none,
      output := none, error := none, artifacts := none,
      lastHeartbeat := none, progress := none }
  (id, { jobs := setEntry id job s.jobs, nextId := s.nextId + 1 })

/-- The values of the map, in insertion order (`this.jobs.values()`). -/
def jobValues (s : JobStore) : List JobState :=
  s.jobs.map Prod.snd

/-- `JobStore.listJobs` (store.ts). -/
def listJobs (s : JobStore) (status : Option JobStatus) : List JobState :=
  match status with
  | some st => (jobValues s).filter fun j => j.status = st
  | none => jobValues s

/-- `JobStore.deleteJob` (store.ts). -/
def deleteJob (s : JobStore) (id : String) : Bool × JobStore :=
  match lookupJob s.jobs id with
  | none => (false, s)
  | some _ => (true, { s with jobs := s.jobs.filter fun e => e.1 ≠ id })

/-- The filter of `JobStore.getTimedOutJobs`: the job is `running`, has a
`startedAt`, has a truthy manifest `timeout` (0 is falsy in JS), and
`(now - startedAt) / 1000 > timeout`. -/
def timedOutB (now : ℚ) (j : JobState) : Bool :=
  match j.status, j.startedAt, j.manifest.timeout with
  | .running, some st, some t => decide (t ≠ 0) && decide ((now - st) / 1000 > t)
  | _, _, _ => false

/-- `JobStore.getTimedOutJobs` (store.ts). -/
def getTimedOutJobs (s : JobStore) (now : ℚ) : List JobState :=
  (jobValues s).filter (timedOutB now)

/-- The filter of `JobStore.getStaleJobs`: the job is `running`, has a
`lastHeartbeat` (a `Date` is always truthy), and
`(now - lastHeartbeat) / 1000 > threshold`. -/
def staleB (threshold now : ℚ) (j : JobState) : Bool :=
  match j.status, j.lastHeartbeat with
  | .running, some h => decide ((now - h) / 1000 > threshold)
  | _, _ => false

/-- `JobStore.getStaleJobs` (store.ts). -/
def getStaleJobs (s : JobStore) (threshold : ℚ) (now : ℚ) : List JobState :=
  (jobValues s).filter (staleB threshold now)

/-- Shape check of `z.string().uuid()` (schemas.ts): 36 characters,
hyphens at positions 8, 13, 18 and 23, hexadecimal digits elsewhere. -/
def isUuid (s : String) : Bool :=
  s.data.length = 36 &&
  (List.range 36).all fun i =>
    match s.data.get? i with
    | none => false
    | some c =>
      if i = 8 ∨ i = 13 ∨ i = 18 ∨ i = 23 then c = '-'
      else c.isDigit || ('a' ≤ c && c ≤ 'f') || ('A' ≤ c && c ≤ 'F')

/-- Terminal status reported by the task runner (`status` field of the
completion payload, `z.enum(['success', 'failed'])`). -/
inductive CbStatus where
  | success
  | failed
  deriving DecidableEq, Repr

/-- A raw JSON completion body before validation: each field of
`CallbackPayloadSchema` is either absent (or of the wrong type), or a
value of the declared type. -/
structure RawComplete where
  job_id : Option String
  status : Option CbStatus
  exit_code : Option ℚ
  output : Option String
  artifacts : Option (List String)
  duration_seconds : Option ℚ
  error : Option String
  deriving DecidableEq, Repr

/-- A validated completion payload (`CallbackPayload`, types.ts). -/
structure CallbackPayload where
  job_id : String
  status : CbStatus
  exit_code : ℚ
  output : String
  artifacts : Option (List String)
  duration_seconds : ℚ
  error : Option String
  deriving DecidableEq, Repr

/-- `CallbackPayloadSchema.safeParse` (schemas.ts): `job_id` must be a
UUID-shaped string, `status`, `exit_code`, `output` and
`duration_seconds` are required, `artifacts` and `error` are optional. -/
def parseCallback (r : RawComplete) : Option CallbackPayload :=
  match r.job_id, r.status, r.exit_code, r.output, r.duration_seconds with
  | some jid, some st, some ec, some out, some dur =>
    if isUuid jid then
      some { job_id := jid, status := st, exit_code := ec, output := out,
             artifacts := r.artifacts, duration_seconds := dur,
             error := r.error }
    else none
  | _, _, _, _, _ => none

/-- A raw JSON status-update body before validation
(`StatusUpdateSchema`). -/
structure RawStatus where
  job_id : Option String
  progress : Option String
  output : Option String
  deriving DecidableEq, Repr

/-- A validated status update (`StatusUpdate`, types.ts). -/
structure StatusUpdate where
  job_id : String
  progress : String
  output : Option String
  deriving DecidableEq, Repr

/-- `StatusUpdateSchema.safeParse` (schemas.ts): `job_id` must be a
UUID-shaped string, `progress` is required, `output` is optional. -/
def parseStatus (r : RawStatus) : Option StatusUpdate :=
  match r.job_id, r.progress with
  | some jid, some prog =>
    if isUuid jid then
      some { job_id := jid, progress := prog, output := r.output }
    else none
  | _, _ => none

/-- HTTP outcome of a callback route. -/
inductive HResp where
  | ok
  | notFound
  | badRequest
  deriving DecidableEq, Repr

/-- The store mutation of the completion handler (callback-server.ts):
the literal update object passed to `updateJob`, merged by
`Object.assign`.  `error` and `artifacts` are assigned even when absent
from the payload (`Object.assign` copies an explicit `undefined`). -/
def applyComplete (p : CallbackPayload) (now : ℚ) (j : JobState) : JobState :=
  { j with
    status := if p.status = .success then .success else .failed,
    output := some p.output,
    error := p.error,
    artifacts := p.artifacts,
    completedAt := some now }

/-- `POST /callback/:jobId/complete` (callback-server.ts): 404 when the
path id is unknown, 400 when the body fails schema validation, otherwise
apply the completion update and answer 200. -/
def handleComplete (s : JobStore) (jobId : String) (r : RawComplete)
    (now : ℚ) : HResp × JobStore :=
  match lookupJob s.jobs jobId with
  | none => (.notFound, s)
  | some _ =>
    match parseCallback r with
    | none => (.badRequest, s)
    | some p => (.ok, (updateJob s jobId (applyComplete p now)).2)

/-- The store mutation of the status handler (callback-server.ts):
`{ progress, ...(output && { output }), lastHeartbeat: new Date() }` —
the spread includes `output` only when it is a truthy (non-empty)
string. -/
def applyStatus (p : StatusUpdate) (now : ℚ) (j : JobState) : JobState :=
  { j with
    progress := some p.progress,
    output := match p.output with
      | some o => if o = "" then j.output else some o
      | none => j.output,
    lastHeartbeat := some now }

/-- `POST /callback/:jobId/status` (callback-server.ts). -/
def handleStatus (s : JobStore) (jobId : String) (r : RawStatus)
    (now : ℚ) : HResp × JobStore :=
  match lookupJob s.jobs jobId with
  | none => (.notFound, s)
  | some _ =>
    match parseStatus r with
    | none => (.badRequest, s)
    | some p => (.ok, (updateJob s jobId (applyStatus p now)).2)

/-- `POST /callback/:jobId/heartbeat` (callback-server.ts): no body
validation; refresh `lastHeartbeat` when the job exists. -/
def handleHeartbeat (s : JobStore) (jobId : String) (now : ℚ) :
    HResp × JobStore :=
  match lookupJob s.jobs jobId with
  | none => (.notFound, s)
  | some _ =>
    (.ok, (updateJob s jobId fun j => { j with lastHeartbeat := some now }).2)

/-- Outcome of the `cancel_job` tool (server.ts, `handleCancelJob`). -/
inductive CancelResult where
  | notFound
  | alreadyCompleted
  | cancelled
  deriving DecidableEq, Repr

/-- `handleCancelJob` (server.ts).  Returns the outcome, the list of VM
handles on which `destroyVM` was attempted (the `if (job.vmId)` truthy
test skips an empty handle), and the resulting store.  `destroyFails`
says whether the `destroyVM` call throws; the `catch {}` swallows it, so
the result does not depend on it. -/
def handleCancelJob (s : JobStore) (jobId : String) (now : ℚ)
    (destroyFails : Bool) : CancelResult × List String × JobStore :=
  match lookupJob s.jobs jobId with
  | none => (.notFound, [], s)
  | some job =>
    if job.status = .success ∨ job.status = .failed then
      (.alreadyCompleted, [], s)
    else
      let calls : List String :=
        match job.vmId with
        | some v => if v = "" then [] else [v]
        | none => []
      (.cancelled, calls,
        (updateJob s jobId fun j =>
          { j with
            status := .failed,
            error := some "Cancelled by user",
            completedAt := some now }).2)

/-- Pass 1 of the cleanup tick, for a single timed-out job
(`startCleanupInterval`, server.ts): best-effort destroy (which does not
touch the store), then force `timeout`. -/
def timeoutPassStep (now : ℚ) (acc : JobStore) (j : JobState) : JobStore :=
  (updateJob acc j.id fun x =>
    { x with
      status := .timeout,
      error := some "Job exceeded timeout",
      completedAt := some now }).2

/-- Pass 2 of the cleanup tick, for a single completed ephemeral job
(`startCleanupInterval`, server.ts): when a truthy handle exists, try to
destroy the VM; only on success clear the handle. -/
def cleanupPassStep (destroyOk : String → Bool) (acc : JobStore)
    (j : JobState) : JobStore :=
  match j.vmId with
  | some v =>
    if v = "" then acc
    else if destroyOk v then
      (updateJob acc j.id fun x => { x with vmId := none }).2
    else acc
  | none => acc

/-- One iteration of `startCleanupInterval` (server.ts), as a pure store
transformation at time `now`.  `destroyOk` is the oracle saying whether
the `destroyVM` call for a given handle succeeds.  Pass 1 drives every
job of `getTimedOutJobs` to `timeout`; pass 2 re-scans the store and
clears the handle of terminal non-persistent jobs whose destroy
succeeded.  No staleness pass exists. -/
def cleanupTick (destroyOk : String → Bool) (s : JobStore) (now : ℚ) :
    JobStore :=
  let s1 := (getTimedOutJobs s now).foldl (timeoutPassStep now) s
  let completed := (listJobs s1 none).filter fun j =>
    decide (j.status = .success ∨ j.status = .failed ∨ j.status = .timeout) &&
    (match j.vmId with | some v => decide (v ≠ "") | none => false) &&
    decide (j.manifest.lifecycle ≠ some .persistent)
  completed.foldl (cleanupPassStep destroyOk) s1

/-- A status is terminal when it is `success`, `failed` or `timeout`. -/
def isTerminal (st : JobStatus) : Prop :=
  st = .success ∨ st = .failed ∨ st = .timeout

instance (st : JobStatus) : Decidable (isTerminal st) := by
  unfold isTerminal; infer_instance

/-- Well-formedness of a store as maintained by the TypeScript `Map`:
keys are pairwise distinct, each value's `id` field equals its key, and
every key comes from the fresh-identifier supply. -/
def WF (s : JobStore) : Prop :=
  (s.jobs.map Prod.fst).Nodup ∧
  ∀ e ∈ s.jobs, e.2.id = e.1

/-- Additionally, every key of the store was produced by the
fresh-identifier supply at an index below the current counter; this is
the reachability invariant of `crypto.randomUUID()` id allocation. -/
def WFfresh (s : JobStore) : Prop :=
  ∀ e ∈ s.jobs, ∃ m, m < s.nextId ∧ e.1 = genId m

/-! ### Concrete fixtures used by the counterexamples and witnesses -/

/-- A minimal manifest: required `task` and `agentType` only. -/
def manifest0 : JobManifest :=
  { task := "t", agentType := .script, agent := none, files := none,
    env := none, secrets := none, resources := none, timeout := none,
    lifecycle := none, vmTemplate := none, statusMode := none }

/-- A blank job record used as the base of the concrete fixtures. -/
def job0 : JobState :=
  { id := "j", manifest := manifest0, status := .pending, vmId := none,
    createdAt := 0, startedAt := none, completedAt := none,
    output := none, error := none, artifacts := none,
    lastHeartbeat := none, progress := none }

/-- A UUID-shaped id. -/
def uuidA : String := "00000000-0000-0000-0000-00000000000a"

/-- A second, distinct UUID-shaped id. -/
def uuidB : String := "00000000-0000-0000-0000-00000000000b"

/-- A `running` job whose last heartbeat (at 0 ms) is long stale by the
default 120 s threshold at 300 000 ms, and whose manifest has no
timeout. -/
def jobC2 : JobState :=
  { job0 with
    id := "c2", status := .running, lastHeartbeat := some 0,
    startedAt := some 0 }

/-- A store holding only `jobC2`. -/
def storeC2 : JobStore := { jobs := [("c2", jobC2)], nextId := 1 }

/-- A `running` job whose manifest timeout is the (falsy) number 0. -/
def jobC4 : JobState :=
  { job0 with
    id := "c4", status := .running, startedAt := some 0,
    manifest := { manifest0 with
    timeout := some 0 } }

/-- A store holding only `jobC4`. -/
def storeC4 : JobStore := { jobs := [("c4", jobC4)], nextId := 1 }

/-- A job already in the terminal status `timeout`. -/
def jobC1 : JobState :=
  { job0 with
    id := "c1", status := .timeout, startedAt := some 0,
    completedAt := some 2000 }

/-- A store holding only `jobC1`. -/
def storeC1 : JobStore := { jobs := [("c1", jobC1)], nextId := 1 }

/-- A terminal `timeout` job that still holds a VM handle. -/
def jobC6 : JobState :=
  { job0 with
    id := "c6", status := .timeout, vmId := some "vm-6",
    startedAt := some 0, completedAt := some 3000 }

/-- A store holding only `jobC6`. -/
def storeC6 : JobStore := { jobs := [("c6", jobC6)], nextId := 1 }

/-- A `running` job with previously reported partial output. -/
def jobC8 : JobState :=
  { job0 with
    id := uuidA, status := .running, startedAt := some 0,
    output := some "prev" }

/-- A store holding only `jobC8`, keyed by `uuidA`. -/
def storeC8 : JobStore := { jobs := [(uuidA, jobC8)], nextId := 1 }

/-- A status-update body carrying a present but empty `output`. -/
def rawC8 : RawStatus :=
  { job_id := some uuidA, progress := some "step 2", output := some "" }

/-- The payload `rawC8` parses to: schema-valid, `output` present and
equal to the empty string. -/
def pC8 : StatusUpdate :=
  { job_id := uuidA, progress := "step 2", output := some "" }

/-- A `running` job used by the completion-handler witnesses. -/
def jobW3 : JobState :=
  { job0 with
    id := uuidA, status := .running, startedAt := some 0,
    error := some "previous error" }

/-- A store holding only `jobW3`, keyed by `uuidA`. -/
def storeW3 : JobStore := { jobs := [(uuidA, jobW3)], nextId := 1 }

/-- A schema-valid completion body reporting success. -/
def rawW3 : RawComplete :=
  { job_id := some uuidA, status := some .success, exit_code := some 0,
    output := some "done", artifacts := none, duration_seconds := some 2,
    error := none }

/-- A completion body missing the required `output` field. -/
def rawBad : RawComplete :=
  { job_id := some uuidA, status := some .success, exit_code := some 0,
    output := none, artifacts := none, duration_seconds := some 2,
    error := none }

/-- Two distinct known jobs for the path-addressing witness: the path id
`"a"` (not UUID-shaped: the path is never validated) and the
UUID-shaped `uuidB`. -/
def jobW10a : JobState :=
  { job0 with
    id := "a", status := .running, startedAt := some 0 }

/-- The second job of the path-addressing witness, keyed by `uuidB`. -/
def jobW10b : JobState :=
  { job0 with
    id := uuidB, status := .running, startedAt := some 0 }

/-- A store holding `jobW10a` and `jobW10b`. -/
def storeW10 : JobStore :=
  { jobs := [("a", jobW10a), (uuidB, jobW10b)], nextId := 2 }

/-- A completion body whose `job_id` field names `uuidB`. -/
def rawW10 : RawComplete :=
  { job_id := some uuidB, status := some .failed, exit_code := some 1,
    output := some "boom", artifacts := none, duration_seconds := some 3,
    error := some "it broke" }

/-- A `running` job with a VM handle, used by the cancel witnesses. -/
def jobW6 : JobState :=
  { job0 with
    id := "r1", status := .running, vmId := some "vm-1",
    startedAt := some 0 }

/-- A `success` job, used by the cancel witnesses. -/
def jobW6s : JobState :=
  { job0 with
    id := "s1", status := .success, startedAt := some 0,
    completedAt := some 1000 }

/-- A store holding `jobW6` and `jobW6s`. -/
def storeW6 : JobStore :=
  { jobs := [("r1", jobW6), ("s1", jobW6s)], nextId := 2 }

/-- A `success` job for the terminal-protection witness. -/
def jobW1 : JobState :=
  { job0 with
    id := "s1", status := .success, completedAt := some 900 }

/-- A store for the terminal-protection witness: one `success` job. -/
def storeW1 : JobStore := { jobs := [("s1", jobW1)], nextId := 1 }

/-- The payload `rawW3` parses to. -/
def pW3 : CallbackPayload :=
  { job_id := uuidA, status := .success, exit_code := 0, output := "done",
    artifacts := none, duration_seconds := 2, error := none }

/-- A status-update body with a non-empty `output`. -/
def rawW8ok : RawStatus :=
  { job_id := some uuidA, progress := some "p3", output := some "more" }

/-- The payload `rawW8ok` parses to. -/
def pW8 : StatusUpdate :=
  { job_id := uuidA, progress := "p3", output := some "more" }

/-- The payload `rawW10` parses to. -/
def pW10 : CallbackPayload :=
  { job_id := uuidB, status := .failed, exit_code := 1, output := "boom",
    artifacts := none, duration_seconds := 3, error := some "it broke" }

/-- The empty store. -/
def storeEmpty : JobStore := { jobs := [], nextId := 0 }

/-! ### Lemmas about the association-list map -/

theorem lookupJob_updateEntries_self (l : List (String × JobState))
    (id : String) (f : JobState → JobState) :
    lookupJob (updateEntries id f l) id = (lookupJob l id).map f := by
  induction l with
  | nil => rfl
  | cons e rest ih =>
    by_cases h : e.1 = id
    · simp [updateEntries, lookupJob, h]
    · simpa [updateEntries, lookupJob, h] using ih

theorem lookupJob_updateEntries_ne (l : List (String × JobState))
    (id id' : String) (f : JobState → JobState) (h : id' ≠ id) :
    lookupJob (updateEntries id f l) id' = lookupJob l id' := by
  induction l with
  | nil => rfl
  | cons e rest ih =>
    by_cases h2 : e.1 = id'
    · have h1 : ¬ e.1 = id := by rw [h2]; exact h
      simp [updateEntries, lookupJob, h2, h]
    · by_cases h1 : e.1 = id
      · simpa [updateEntries, lookupJob, h1, h2, h1 ▸ h2] using ih
      · simpa [updateEntries, lookupJob, h1, h2] using ih

theorem lookupJob_append_none (l : List (String × JobState))
    (id : String) (j : JobState) (h : lookupJob l id = none) :
    lookupJob (l ++ [(id, j)]) id = some j := by
  induction l with
  | nil => simp [lookupJob]
  | cons e rest ih =>
    by_cases h1 : e.1 = id
    · simp [lookupJob, h1] at h
    · simp only [lookupJob, h1, if_false, List.cons_append, if_neg h1] at h ⊢
      exact ih h

theorem lookupJob_eq_some_mem (l : List (String × JobState))
    (id : String) (v : JobState) (h : lookupJob l id = some v) :
    (id, v) ∈ l := by
  induction l with
  | nil => simp [lookupJob] at h
  | cons e rest ih =>
    by_cases h1 : e.1 = id
    · simp only [lookupJob, if_pos h1] at h
      have hv : e.2 = v := Option.some.inj h
      have : (id, v) = e := by
        cases e; cases h1; cases hv; rfl
      rw [this]
      exact List.mem_cons_self _ _
    · simp only [lookupJob, if_neg h1] at h
      exact List.mem_cons_of_mem _ (ih h)

theorem lookupJob_of_mem_nodup (l : List (String × JobState))
    (id : String) (v : JobState) (hn : (l.map Prod.fst).Nodup)
    (hm : (id, v) ∈ l) : lookupJob l id = some v := by
  induction l with
  | nil => simp at hm
  | cons e rest ih =>
    rw [List.map_cons, List.nodup_cons] at hn
    rcases List.mem_cons.mp hm with heq | hmem
    · rw [← heq]
      simp [lookupJob]
    · have hne : ¬ e.1 = id := by
        intro hk
        exact hn.1 (hk ▸ List.mem_map.mpr ⟨(id, v), hmem, rfl⟩)
      simp only [lookupJob, if_neg hne]
      exact ih hn.2 hmem

/-! ### Lemmas about `getJob` after `updateJob` -/

theorem getJob_updateJob_self (s : JobStore) (id : String)
    (f : JobState → JobState) (j : JobState) (h : getJob s id = some j) :
    getJob (updateJob s id f).2 id = some (f j) := by
  unfold getJob at *
  unfold updateJob
  rw [h]
  simp [lookupJob_updateEntries_self, h]

theorem getJob_updateJob_ne (s : JobStore) (id id' : String)
    (f : JobState → JobState) (h : id' ≠ id) :
    getJob (updateJob s id f).2 id' = getJob s id' := by
  unfold getJob updateJob
  cases hl : lookupJob s.jobs id
  · rfl
  · simpa using lookupJob_updateEntries_ne s.jobs id id' f h

theorem statusAt_updateJob (s : JobStore) (id id' : String)
    (f : JobState → JobState) (hf : ∀ x, (f x).status = x.status) :
    (getJob (updateJob s id f).2 id').map JobState.status
      = (getJob s id').map JobState.status := by
  by_cases h : id' = id
  · subst h
    unfold getJob updateJob
    cases hl : lookupJob s.jobs id' with
    | none => simp [hl]
    | some j => simp [hl, lookupJob_updateEntries_self, hf]
  · rw [getJob_updateJob_ne s id id' f h]

/-! ### Lemmas about the cleanup tick's two passes -/

theorem getJob_foldl_timeoutPass (now : ℚ) (L : List JobState)
    (s : JobStore) (id : String) (h : ∀ jb ∈ L, jb.id ≠ id) :
    getJob (L.foldl (timeoutPassStep now) s) id = getJob s id := by
  induction L generalizing s with
  | nil => rfl
  | cons jb rest ih =>
    rw [List.foldl_cons,
      ih _ fun x hx => h x (List.mem_cons_of_mem _ hx)]
    exact getJob_updateJob_ne _ _ _ _ (h jb (List.mem_cons_self _ _)).symm

theorem statusAt_foldl_cleanupPass (ok : String → Bool) (L : List JobState)
    (s : JobStore) (id : String) :
    (getJob (L.foldl (cleanupPassStep ok) s) id).map JobState.status
      = (getJob s id).map JobState.status := by
  induction L generalizing s with
  | nil => rfl
  | cons jb rest ih =>
    rw [List.foldl_cons, ih]
    show (getJob (cleanupPassStep ok s jb) id).map JobState.status = _
    unfold cleanupPassStep
    cases jb.vmId with
    | none => rfl
    | some v =>
      by_cases hv : v = ""
      · simp [hv]
      · by_cases ho : ok v
        · simp only [if_neg hv, if_pos ho]
          exact statusAt_updateJob _ _ _ _ fun x => rfl
        · simp [hv, ho]

/-! ### Characterization of the store scan predicates -/

theorem timedOutB_eq_true_iff (now : ℚ) (j : JobState) :
    timedOutB now j = true ↔
      j.status = .running ∧ ∃ st, j.startedAt = some st ∧
        ∃ t, j.manifest.timeout = some t ∧ t ≠ 0 ∧ (now - st) / 1000 > t := by
  cases h1 : j.status <;> cases h2 : j.startedAt <;>
    cases h3 : j.manifest.timeout <;>
    simp [timedOutB, h1, h2, h3, Bool.and_eq_true, decide_eq_true_eq,
      and_assoc]

theorem staleB_eq_true_iff (threshold now : ℚ) (j : JobState) :
    staleB threshold now j = true ↔
      j.status = .running ∧ ∃ h, j.lastHeartbeat = some h ∧
        (now - h) / 1000 > threshold := by
  cases h1 : j.status <;> cases h2 : j.lastHeartbeat <;>
    simp [staleB, h1, h2, decide_eq_true_eq]

/-- A value of the store, looked up at its own `id` field, is found
(uses key distinctness and key-field coherence). -/
theorem mem_jobValues_lookup (s : JobStore) (j : JobState) (hWF : WF s)
    (hj : j ∈ jobValues s) : lookupJob s.jobs j.id = some j := by
  obtain ⟨e, he, rfl⟩ := List.mem_map.mp hj
  have hid : e.2.id = e.1 := hWF.2 e he
  rw [hid]
  exact lookupJob_of_mem_nodup s.jobs e.1 e.2 hWF.1
    (by cases e; exact he)

/-- Applying the same `updateJob` twice is the same as applying it once,
when the merge itself is idempotent. -/
theorem updateEntries_idem (id : String) (f : JobState → JobState)
    (hf : ∀ x, f (f x) = f x) (l : List (String × JobState)) :
    updateEntries id f (updateEntries id f l) = updateEntries id f l := by
  induction l with
  | nil => rfl
  | cons e rest ih =>
    by_cases h : e.1 = id
    · simpa [updateEntries, h, hf] using ih
    · simpa [updateEntries, h] using ih

theorem updateJob_idem (s : JobStore) (id : String)
    (f : JobState → JobState) (hf : ∀ x, f (f x) = f x) :
    updateJob (updateJob s id f).2 id f = updateJob s id f := by
  cases hl : lookupJob s.jobs id with
  | none => simp [updateJob, hl]
  | some j =>
    simp only [updateJob, hl]
    rw [lookupJob_updateEntries_self, hl]
    simp [updateEntries_idem id f hf]

/-! ### Claim theorems -/

/-- C2: the periodic reconciliation tick performs no staleness check.
The claim says the tick detects every `running` job whose heartbeat is
older than the threshold and drives it to cleanup/terminal handling; the
code's tick only runs the timeout scan and the ephemeral-VM cleanup, so
a stale heartbeat with no manifest timeout leaves the job `running` and
the store untouched.  Evaluation of the tick at the failing input. -/
theorem cleanup_tick_ignores_stale_jobs :
    jobC2.status = .running ∧
    getStaleJobs storeC2 120 300000 = [jobC2] ∧
    cleanupTick (fun _ => true) storeC2 300000 = storeC2 := by
  refine ⟨rfl, ?_, by decide⟩
  have hb : staleB 120 300000 jobC2 = true := by
    simp only [staleB, jobC2, job0, decide_eq_true_eq]
    norm_num
  simp [getStaleJobs, jobValues, storeC2, List.filter_cons, hb]

/-- C4 (counterexample): the claimed characterization of
`getTimedOutJobs` fails at a manifest whose `timeout` is the number 0:
the job is `running`, has a `startedAt`, its manifest specifies the
timeout 0, and more than 0 seconds elapsed, yet the JavaScript
truthiness test `!job.manifest.timeout` excludes it from the result. -/
theorem findTimedOut_zero_timeout_cex :
    jobC4.status = .running ∧ jobC4.startedAt = some 0 ∧
    jobC4.manifest.timeout = some 0 ∧ ((5000 : ℚ) - 0) / 1000 > 0 ∧
    jobC4 ∈ jobValues storeC4 ∧ jobC4 ∉ getTimedOutJobs storeC4 5000 := by
  refine ⟨rfl, rfl, rfl, by norm_num, by decide, by decide⟩

/-- C4 (amended): `getTimedOutJobs` returns a job if and only if its
status is `running`, its `startedAt` is set, its manifest specifies a
**nonzero** timeout, and the elapsed seconds since `startedAt` strictly
exceed that timeout. -/
theorem findTimedOut_mem_iff (s : JobStore) (now : ℚ) (j : JobState) :
    j ∈ getTimedOutJobs s now ↔
      j ∈ jobValues s ∧ j.status = .running ∧ ∃ st, j.startedAt = some st ∧
        ∃ t, j.manifest.timeout = some t ∧ t ≠ 0 ∧ (now - st) / 1000 > t := by
  unfold getTimedOutJobs
  rw [List.mem_filter, timedOutB_eq_true_iff]

/-- C5: `getStaleJobs` returns a job if and only if its status is
`running`, its `lastHeartbeat` is set, and the elapsed seconds since
`lastHeartbeat` strictly exceed the threshold. -/
theorem findStale_mem_iff (s : JobStore) (threshold now : ℚ)
    (j : JobState) :
    j ∈ getStaleJobs s threshold now ↔
      j ∈ jobValues s ∧ j.status = .running ∧ ∃ h, j.lastHeartbeat = some h ∧
        (now - h) / 1000 > threshold := by
  unfold getStaleJobs
  rw [List.mem_filter, staleB_eq_true_iff]

/-- C7: delivering the same completion report twice at the same instant
leaves the store and the response exactly as after one delivery: the
second application overwrites each field with an identical value. -/
theorem complete_idempotent (s : JobStore) (id : String)
    (r : RawComplete) (now : ℚ) :
    handleComplete (handleComplete s id r now).2 id r now
      = handleComplete s id r now := by
  cases hl : lookupJob s.jobs id with
  | none =>
    have h1 : handleComplete s id r now = (.notFound, s) := by
      unfold handleComplete; rw [hl]
    rw [h1]
    exact h1
  | some j =>
    cases hp : parseCallback r with
    | none =>
      have h1 : handleComplete s id r now = (.badRequest, s) := by
        unfold handleComplete; rw [hl, hp]
      rw [h1]
      exact h1
    | some p =>
      have h1 : handleComplete s id r now
          = (.ok, (updateJob s id (applyComplete p now)).2) := by
        unfold handleComplete; rw [hl, hp]
      have hl2 : lookupJob ((updateJob s id (applyComplete p now)).2).jobs id
          = some (applyComplete p now j) :=
        getJob_updateJob_self s id _ j hl
      rw [h1]
      unfold handleComplete
      rw [hl2, hp]
      dsimp only
      rw [updateJob_idem s id (applyComplete p now) fun x => rfl]

/-- The fresh-identifier supply never repeats an id. -/
theorem genId_injective {a b : Nat} (h : genId a = genId b) : a = b := by
  unfold genId at h
  have hl : List.replicate a 'x' = List.replicate b 'x' := by
    injection h
  simpa using congrArg List.length hl

/-- C9: for every manifest, the id returned by `createJob` is distinct
from every id already in the store (granted the `randomUUID` freshness
invariant `WFfresh`), and `getJob` on that id immediately returns a job
with status `pending`, `createdAt` equal to the creation time, and
exactly the manifest passed in; `createJob` is a total function, so it
never fails. -/
theorem createJob_fresh_pending (s : JobStore) (m : JobManifest)
    (now : ℚ) (h : WFfresh s) :
    getJob s (createJob s m now).1 = none ∧
    getJob (createJob s m now).2 (createJob s m now).1
      = some { id := (createJob s m now).1, manifest := m,
               status := .pending, vmId := none, createdAt := now,
               startedAt := none, completedAt := none, output := none,
               error := none, artifacts := none, lastHeartbeat := none,
               progress := none } := by
  have hfresh : lookupJob s.jobs (genId s.nextId) = none := by
    cases hl : lookupJob s.jobs (genId s.nextId) with
    | none => rfl
    | some v =>
      exfalso
      have hm := lookupJob_eq_some_mem _ _ _ hl
      obtain ⟨k, hk, hkey⟩ := h _ hm
      have : s.nextId = k := genId_injective hkey
      omega
  constructor
  · exact hfresh
  · show lookupJob (setEntry (genId s.nextId) _ s.jobs) (genId s.nextId)
      = _
    unfold setEntry
    rw [hfresh]
    simpa using lookupJob_append_none s.jobs (genId s.nextId) _ hfresh

/-- C9 witness: `createJob` on the empty store. -/
theorem createJob_fresh_pending_witness :
    getJob storeEmpty (createJob storeEmpty manifest0 42).1 = none ∧
    getJob (createJob storeEmpty manifest0 42).2
        (createJob storeEmpty manifest0 42).1
      = some { id := (createJob storeEmpty manifest0 42).1,
               manifest := manifest0, status := .pending, vmId := none,
               createdAt := 42, startedAt := none, completedAt := none,
               output := none, error := none, artifacts := none,
               lastHeartbeat := none, progress := none } :=
  createJob_fresh_pending storeEmpty manifest0 42
    (fun e he => absurd he (List.not_mem_nil e))

/-- C3: the completion handler answers "not found" for an unknown path
id and "bad request" for a schema-invalid body, leaving the entire store
unchanged in both cases; otherwise it answers 200 and sets the job's
status from the payload, records output, error and artifacts from the
payload, and sets `completedAt` to the current time. -/
theorem complete_handler_contract (s : JobStore) (id : String)
    (r : RawComplete) (now : ℚ) :
    (getJob s id = none → handleComplete s id r now = (.notFound, s)) ∧
    (∀ j, getJob s id = some j → parseCallback r = none →
      handleComplete s id r now = (.badRequest, s)) ∧
    (∀ j p, getJob s id = some j → parseCallback r = some p →
      (handleComplete s id r now).1 = .ok ∧
      getJob (handleComplete s id r now).2 id
        = some { j with
            status := if p.status = .success then .success else .failed,
            output := some p.output,
            error := p.error,
            artifacts := p.artifacts,
            completedAt := some now }) := by
  refine ⟨?_, ?_, ?_⟩
  · intro h
    unfold handleComplete
    rw [show lookupJob s.jobs id = none from h]
  · intro j hj hp
    unfold handleComplete
    rw [show lookupJob s.jobs id = some j from hj, hp]
  · intro j p hj hp
    have h1 : handleComplete s id r now
        = (.ok, (updateJob s id (applyComplete p now)).2) := by
      unfold handleComplete
      rw [show lookupJob s.jobs id = some j from hj, hp]
    rw [h1]
    exact ⟨rfl, getJob_updateJob_self s id _ j hj⟩

/-- C3 witness: the three branches at concrete inputs. -/
theorem complete_handler_contract_witness :
    handleComplete storeW3 "zz" rawW3 5000 = (.notFound, storeW3) ∧
    handleComplete storeW3 uuidA rawBad 5000 = (.badRequest, storeW3) ∧
    (handleComplete storeW3 uuidA rawW3 5000).1 = .ok ∧
    getJob (handleComplete storeW3 uuidA rawW3 5000).2 uuidA
      = some { jobW3 with
          status := .success, output := some "done", error := none,
          artifacts := none, completedAt := some 5000 } := by
  refine ⟨?_, ?_, ?_, ?_⟩
  · exact (complete_handler_contract storeW3 "zz" rawW3 5000).1 (by decide)
  · exact (complete_handler_contract storeW3 uuidA rawBad 5000).2.1 jobW3
      (by decide) (by decide)
  · exact ((complete_handler_contract storeW3 uuidA rawW3 5000).2.2 jobW3
      pW3 (by decide) (by decide)).1
  · exact ((complete_handler_contract storeW3 uuidA rawW3 5000).2.2 jobW3
      pW3 (by decide) (by decide)).2

/-- C8 (counterexample): a progress report whose `output` field is
present but the empty string passes schema validation and is accepted
with 200, yet the job's `output` is left at its previous value
`some "prev"`: in the handler's update object the spread of
`output && ...` includes the `output` key only when the string is
truthy, and the empty string is falsy in JavaScript.  The exact
post-state shows `progress` and `lastHeartbeat` updated and every other
field — `output` included — unchanged, refuting the claim's "updates
`output` whenever the payload's output field is present (including when
it is the empty string)". -/
theorem status_handler_empty_output_cex :
    rawC8.output = some "" ∧
    parseStatus rawC8 = some pC8 ∧
    pC8.output = some "" ∧
    jobC8.output = some "prev" ∧
    (handleStatus storeC8 uuidA rawC8 7000).1 = .ok ∧
    getJob (handleStatus storeC8 uuidA rawC8 7000).2 uuidA
      = some { jobC8 with
          progress := some "step 2", lastHeartbeat := some 7000 } := by
  refine ⟨rfl, by decide, rfl, rfl, by decide, by decide⟩

/-- C8 (amended): the progress handler answers "not found" for an
unknown id and "bad request" for an invalid payload, both without
mutation; otherwise it updates `progress`, updates `output` whenever the
payload's output field is present **and non-empty**, sets
`lastHeartbeat` to the current time, and changes no other field (nor any
other job). -/
theorem status_handler_contract_amended (s : JobStore) (id : String)
    (r : RawStatus) (now : ℚ) :
    (getJob s id = none → handleStatus s id r now = (.notFound, s)) ∧
    (∀ j, getJob s id = some j → parseStatus r = none →
      handleStatus s id r now = (.badRequest, s)) ∧
    (∀ j p, getJob s id = some j → parseStatus r = some p →
      (handleStatus s id r now).1 = .ok ∧
      getJob (handleStatus s id r now).2 id
        = some { j with
            progress := some p.progress,
            output := match p.output with
              | some o => if o = "" then j.output else some o
              | none => j.output,
            lastHeartbeat := some now } ∧
      ∀ id2, id2 ≠ id →
        getJob (handleStatus s id r now).2 id2 = getJob s id2) := by
  refine ⟨?_, ?_, ?_⟩
  · intro h
    unfold handleStatus
    rw [show lookupJob s.jobs id = none from h]
  · intro j hj hp
    unfold handleStatus
    rw [show lookupJob s.jobs id = some j from hj, hp]
  · intro j p hj hp
    have h1 : handleStatus s id r now
        = (.ok, (updateJob s id (applyStatus p now)).2) := by
      unfold handleStatus
      rw [show lookupJob s.jobs id = some j from hj, hp]
    rw [h1]
    exact ⟨rfl, getJob_updateJob_self s id _ j hj,
      fun id2 h2 => getJob_updateJob_ne s id id2 _ h2⟩

/-- C8 witness: a progress report with a non-empty `output`, and the
not-found branch, at concrete inputs. -/
theorem status_handler_contract_amended_witness :
    (handleStatus storeC8 uuidA rawW8ok 7000).1 = .ok ∧
    getJob (handleStatus storeC8 uuidA rawW8ok 7000).2 uuidA
      = some { jobC8 with
          progress := some "p3", output := some "more",
          lastHeartbeat := some 7000 } ∧
    handleStatus storeC8 "zz" rawW8ok 7000 = (.notFound, storeC8) := by
  refine ⟨?_, ?_, ?_⟩
  · exact ((status_handler_contract_amended storeC8 uuidA rawW8ok 7000).2.2
      jobC8 pW8 (by decide) (by decide)).1
  · exact ((status_handler_contract_amended storeC8 uuidA rawW8ok 7000).2.2
      jobC8 pW8 (by decide) (by decide)).2.1
  · exact (status_handler_contract_amended storeC8 "zz" rawW8ok 7000).1
      (by decide)

/-- C10: the completion handler identifies the target job solely by the
id in the URL path.  The body's `job_id` is shape-checked (a non-UUID
string fails validation) but never compared with the path id: for
distinct known ids `a` and `b`, a completion addressed to `a` whose body
carries `job_id = b` mutates job `a` and leaves job `b` unchanged. -/
theorem complete_addressed_by_path_id (s : JobStore) (a b : String)
    (r : RawComplete) (p : CallbackPayload) (now : ℚ) (jA jB : JobState)
    (hne : a ≠ b) (ha : getJob s a = some jA) (hb : getJob s b = some jB)
    (hp : parseCallback r = some p) (hpid : p.job_id = b) :
    (handleComplete s a r now).1 = .ok ∧
    getJob (handleComplete s a r now).2 a = some (applyComplete p now jA) ∧
    getJob (handleComplete s a r now).2 b = some jB ∧
    ∀ r2 u, r2.job_id = some u → isUuid u = false →
      parseCallback r2 = none := by
  have h1 : handleComplete s a r now
      = (.ok, (updateJob s a (applyComplete p now)).2) := by
    unfold handleComplete
    rw [show lookupJob s.jobs a = some jA from ha, hp]
  refine ⟨by rw [h1], ?_, ?_, ?_⟩
  · rw [h1]
    exact getJob_updateJob_self s a _ jA ha
  · rw [h1]
    rw [show getJob (updateJob s a (applyComplete p now)).2 b = getJob s b
      from getJob_updateJob_ne s a b _ (Ne.symm hne)]
    exact hb
  · intro r2 u hju hbadu
    cases h2 : r2.status <;> cases h3 : r2.exit_code <;>
      cases h4 : r2.output <;> cases h5 : r2.duration_seconds <;>
      simp [parseCallback, hju, h2, h3, h4, h5, hbadu]

/-- C10 witness: concrete store with two jobs; the completion addressed
to path id `"a"` carrying body `job_id = uuidB` mutates the job at `"a"`
and leaves the job at `uuidB` unchanged. -/
theorem complete_addressed_by_path_id_witness :
    (handleComplete storeW10 "a" rawW10 9000).1 = .ok ∧
    getJob (handleComplete storeW10 "a" rawW10 9000).2 "a"
      = some (applyComplete pW10 9000 jobW10a) ∧
    getJob (handleComplete storeW10 "a" rawW10 9000).2 uuidB
      = some jobW10b ∧
    ∀ u, rawW10.job_id = some u → isUuid u = false →
      parseCallback rawW10 = none := by
  have h := complete_addressed_by_path_id storeW10 "a" uuidB rawW10 pW10
    9000 jobW10a jobW10b (by decide) (by decide) (by decide) (by decide)
    (by decide)
  exact ⟨h.1, h.2.1, h.2.2.1, fun u hu hbad => h.2.2.2 rawW10 u hu hbad⟩

/-- C6 (counterexample): `cancel` does not reject every terminal job:
its guard checks only `success` and `failed`, so a job already in the
terminal status `timeout` is cancelled — the destroy of its VM handle is
attempted and its status is forced to `failed` — instead of being
rejected with "already completed" and the store left unchanged. -/
theorem cancel_accepts_timeout_job_cex :
    jobC6.status = .timeout ∧
    (handleCancelJob storeC6 "c6" 9999 true).1 = .cancelled ∧
    (handleCancelJob storeC6 "c6" 9999 true).2.1 = ["vm-6"] ∧
    (getJob (handleCancelJob storeC6 "c6" 9999 true).2.2 "c6").map
        JobState.status
      = some .failed := by
  refine ⟨rfl, by decide, by decide, by decide⟩

/-- C6 (amended): `cancel` rejects a job whose status is `success` or
`failed` with "already completed" and leaves the store unchanged; for a
job in any other status (including the terminal `timeout`) it attempts
a best-effort destroy of a truthy environment handle, forces the status
to `failed` with error "Cancelled by user" and `completedAt = now`, and
the outcome is the same whether or not the destroy call fails. -/
theorem cancel_contract_amended (s : JobStore) (id : String) (now : ℚ)
    (b : Bool) :
    (getJob s id = none → handleCancelJob s id now b = (.notFound, [], s)) ∧
    (∀ j, getJob s id = some j →
      j.status = .success ∨ j.status = .failed →
      handleCancelJob s id now b = (.alreadyCompleted, [], s)) ∧
    (∀ j, getJob s id = some j → j.status ≠ .success →
      j.status ≠ .failed →
      (handleCancelJob s id now b).1 = .cancelled ∧
      (handleCancelJob s id now b).2.1
        = (match j.vmId with
           | some v => if v = "" then [] else [v]
           | none => []) ∧
      getJob (handleCancelJob s id now b).2.2 id
        = some { j with
            status := .failed, error := some "Cancelled by user",
            completedAt := some now } ∧
      ∀ b2, handleCancelJob s id now b2 = handleCancelJob s id now b) := by
  refine ⟨?_, ?_, ?_⟩
  · intro h
    unfold handleCancelJob
    rw [show lookupJob s.jobs id = none from h]
  · intro j hj hterm
    unfold handleCancelJob
    rw [show lookupJob s.jobs id = some j from hj]
    simp [hterm]
  · intro j hj hs hf
    have hcond : ¬ (j.status = .success ∨ j.status = .failed) := by
      simp [hs, hf]
    have h1 : handleCancelJob s id now b
        = (.cancelled,
           (match j.vmId with
            | some v => if v = "" then [] else [v]
            | none => []),
           (updateJob s id fun x =>
             { x with
               status := .failed, error := some "Cancelled by user",
               completedAt := some now }).2) := by
      unfold handleCancelJob
      rw [show lookupJob s.jobs id = some j from hj]
      dsimp only
      rw [if_neg hcond]
    rw [h1]
    refine ⟨rfl, rfl, getJob_updateJob_self s id _ j hj, ?_⟩
    intro b2
    unfold handleCancelJob
    rw [show lookupJob s.jobs id = some j from hj]
    dsimp only
    rw [if_neg hcond]

/-- C6 witness: cancelling a `running` job with a VM handle destroys the
handle once and forces `failed` with "Cancelled by user"; cancelling a
`success` job is rejected without mutation. -/
theorem cancel_contract_amended_witness :
    (handleCancelJob storeW6 "r1" 500 true).1 = .cancelled ∧
    (handleCancelJob storeW6 "r1" 500 true).2.1 = ["vm-1"] ∧
    getJob (handleCancelJob storeW6 "r1" 500 true).2.2 "r1"
      = some { jobW6 with
          status := .failed, error := some "Cancelled by user",
          completedAt := some 500 } ∧
    handleCancelJob storeW6 "s1" 500 true
      = (.alreadyCompleted, [], storeW6) := by
  have h3 := (cancel_contract_amended storeW6 "r1" 500 true).2.2 jobW6
    (by decide) (by decide) (by decide)
  have h2 := (cancel_contract_amended storeW6 "s1" 500 true).2.1 jobW6s
    (by decide) (Or.inl (by decide))
  exact ⟨h3.1, h3.2.1, h3.2.2.1, h2⟩

/-- The cleanup tick never changes the status of a job that is already
terminal: pass 1 only rewrites jobs that were `running` at the scan, and
pass 2 only clears VM handles. -/
theorem statusAt_cleanupTick (ok : String → Bool) (s : JobStore)
    (now : ℚ) (id : String) (j : JobState) (hWF : WF s)
    (h : getJob s id = some j) (hterm : isTerminal j.status) :
    (getJob (cleanupTick ok s now) id).map JobState.status
      = some j.status := by
  have hids : ∀ jb ∈ getTimedOutJobs s now, jb.id ≠ id := by
    intro jb hjb heq
    have hmem := (List.mem_filter.mp hjb).1
    have hrun : jb.status = .running :=
      ((timedOutB_eq_true_iff now jb).mp (List.mem_filter.mp hjb).2).1
    have hl : lookupJob s.jobs id = some jb :=
      heq ▸ mem_jobValues_lookup s jb hWF hmem
    rw [show lookupJob s.jobs id = some j from h] at hl
    obtain rfl := Option.some.inj hl
    rw [hrun] at hterm
    exact absurd hterm (by decide)
  simp only [cleanupTick]
  rw [statusAt_foldl_cleanupPass,
    getJob_foldl_timeoutPass now _ s id hids, h]
  rfl

/-- C1 (counterexample): the status of a terminal job is not protected
against every subsequent operation: cancelling a job whose status is
the terminal `timeout` changes its status to `failed`. -/
theorem cancel_changes_timeout_status_cex :
    jobC1.status = .timeout ∧
    (getJob (handleCancelJob storeC1 "c1" 8000 false).2.2 "c1").map
        JobState.status
      = some .failed := by
  refine ⟨rfl, by decide⟩

/-- C1 (amended): once a job reaches `success` or `failed`, `cancel`
rejects it without mutation, and the heartbeat handler, the progress
handler and the reconciliation tick never change any terminal status;
however, `cancel` drives a job whose terminal status is `timeout` to
`failed`, and a completion callback overwrites the status of any known
job — terminal or not — with the payload's status. -/
theorem terminal_status_protection_amended :
    (∀ s id now b j, getJob s id = some j →
      j.status = .success ∨ j.status = .failed →
      handleCancelJob s id now b = (.alreadyCompleted, [], s)) ∧
    (∀ s id now id2,
      (getJob (handleHeartbeat s id now).2 id2).map JobState.status
        = (getJob s id2).map JobState.status) ∧
    (∀ s id r now id2,
      (getJob (handleStatus s id r now).2 id2).map JobState.status
        = (getJob s id2).map JobState.status) ∧
    (∀ ok s now id j, WF s → getJob s id = some j →
      isTerminal j.status →
      (getJob (cleanupTick ok s now) id).map JobState.status
        = some j.status) ∧
    (∀ s id now b j, getJob s id = some j → j.status = .timeout →
      (getJob (handleCancelJob s id now b).2.2 id).map JobState.status
        = some .failed) ∧
    (∀ s id r p now j, getJob s id = some j → parseCallback r = some p →
      (getJob (handleComplete s id r now).2 id).map JobState.status
        = some (if p.status = .success then .success else .failed)) := by
  refine ⟨?_, ?_, ?_, ?_, ?_, ?_⟩
  · intro s id now b j hj hterm
    unfold handleCancelJob
    rw [show lookupJob s.jobs id = some j from hj]
    simp [hterm]
  · intro s id now id2
    unfold handleHeartbeat
    cases hl : lookupJob s.jobs id with
    | none => rfl
    | some j =>
      exact statusAt_updateJob s id id2 _ fun x => rfl
  · intro s id r now id2
    unfold handleStatus
    cases hl : lookupJob s.jobs id with
    | none => rfl
    | some j =>
      cases hp : parseStatus r with
      | none => rfl
      | some p =>
        exact statusAt_updateJob s id id2 _ fun x => rfl
  · intro ok s now id j hWF hj hterm
    exact statusAt_cleanupTick ok s now id j hWF hj hterm
  · intro s id now b j hj hst
    unfold handleCancelJob
    rw [show lookupJob s.jobs id = some j from hj]
    dsimp only
    rw [if_neg (show ¬ (j.status = .success ∨ j.status = .failed) by
      simp [hst])]
    show (getJob (updateJob s id _).2 id).map JobState.status = _
    rw [getJob_updateJob_self s id _ j hj]
    rfl
  · intro s id r p now j hj hp
    have h1 : handleComplete s id r now
        = (.ok, (updateJob s id (applyComplete p now)).2) := by
      unfold handleComplete
      rw [show lookupJob s.jobs id = some j from hj, hp]
    rw [h1]
    show (getJob (updateJob s id _).2 id).map JobState.status = _
    rw [getJob_updateJob_self s id _ j hj]
    rfl

/-- C1 witness: cancel rejects a concrete `success` job without
mutation, and a tick leaves its status `success`. -/
theorem terminal_status_protection_amended_witness :
    handleCancelJob storeW1 "s1" 100 false
      = (.alreadyCompleted, [], storeW1) ∧
    (getJob (cleanupTick (fun _ => true) storeW1 100) "s1").map
        JobState.status
      = some .success := by
  obtain ⟨h1, _, _, h4, _, _⟩ := terminal_status_protection_amended
  refine ⟨h1 storeW1 "s1" 100 false jobW1 (by decide) (Or.inl (by decide)),
    ?_⟩
  have := h4 (fun _ => true) storeW1 100 "s1" jobW1
    ⟨by decide, by decide⟩ (by decide) (Or.inl (by decide))
  exact this
